import Mathlib

/-!
# Verification of the data-retention / archival / integrity pipeline

Shallow embedding of the archival subsystem of the slendermorris-cuttings
order-tracking application:

* `src/models.py` — the `SampleRequest` (active) and `ArchivedRequest`
  (archive) row schemas and their `to_dict` serializations;
* `src/data_integrity.py` — the `DataIntegrityManager`: delete-interception
  listeners, the JSON audit log, `recover_from_audit_log`,
  `perform_integrity_check`;
* `src/database_maintenance.py` — `archive_dispatched_requests`;
* `src/database_recovery.py` — `restore_from_backup`;
* `src/backup_orchestrator.py` — `execute_with_safeguards`.

Modelling conventions:

* Timestamps are integers (days on a common timeline).  Python's
  `strftime('%Y-%m-%d %H:%M:%S')` / `datetime.fromisoformat` round trip is
  modelled as the identity on these integers.
* The SQLAlchemy session is a `DBState`: `cur` is the in-transaction view
  (what flushed statements and queries see), `committed` the durable view.
  `commit` copies `cur` into `committed`; `rollback` restores `cur` from
  `committed`.  Autoincrement counters live outside the transactional state,
  as database sequences do.
* The JSON audit-log file is an `AuditFile`: `missing` (no file on disk),
  `corrupt` (present but `json.load` raises), or `ok entries`.  File writes
  are not transactional: they survive a session rollback.
* Python exceptions raised by the environment inside the archiver's
  per-record `try` block (`database_maintenance.py` lines 88–92) are modelled
  by an oracle `failRec : Nat → Bool`; a `true` id fails before any session
  mutation, is added to the failed list, and the loop continues — exactly
  the `except ... continue` branch.
* The `checksum` field of an audit entry (a SHA-256 of the JSON dump) is
  never read back by any code under verification and is omitted.
-/

/-- A row of the active table `sample_requests` (`models.py` lines 5–32). -/
structure Request where
  id : Nat
  customer_name : String
  email : String
  phone : Option String
  company_name : String
  reference : Option String
  street_address : String
  city : String
  state_province : String
  postal_code : String
  country : String
  fabric_selections : String
  additional_notes : Option String
  status : String
  date_submitted : Int
  date_dispatched : Option Int
  iliv_email_sent : Bool
deriving DecidableEq

/-- A row of the archive table `archived_requests` (`models.py` lines 57–92).
`date_dispatched` is `nullable=False` there, hence a plain `Int`. -/
structure ArchivedRequest where
  id : Nat
  original_id : Nat
  customer_name : String
  email : String
  phone : Option String
  company_name : String
  reference : Option String
  street_address : String
  city : String
  state_province : String
  postal_code : String
  country : String
  fabric_selections : String
  additional_notes : Option String
  status : String
  date_submitted : Int
  date_dispatched : Int
  iliv_email_sent : Bool
  date_archived : Int
deriving DecidableEq

/-- The dictionary produced by `SampleRequest.to_dict` (`models.py` lines
37–55).  Note the source omits `iliv_email_sent` from the dictionary. -/
structure RequestData where
  id : Nat
  customer_name : String
  email : String
  phone : Option String
  company_name : String
  reference : Option String
  street_address : String
  city : String
  state_province : String
  postal_code : String
  country : String
  fabric_selections : String
  additional_notes : Option String
  status : String
  date_submitted : Int
  date_dispatched : Option Int
deriving DecidableEq

/-- The dictionary produced by `ArchivedRequest.to_dict` (`models.py` lines
97–117); it likewise omits `iliv_email_sent`. -/
structure ArchivedData where
  id : Nat
  original_id : Nat
  customer_name : String
  email : String
  phone : Option String
  company_name : String
  reference : Option String
  street_address : String
  city : String
  state_province : String
  postal_code : String
  country : String
  fabric_selections : String
  additional_notes : Option String
  status : String
  date_submitted : Int
  date_dispatched : Int
  date_archived : Int
deriving DecidableEq

/-- `SampleRequest.to_dict` (`models.py` lines 37–55). -/
def Request.to_dict (r : Request) : RequestData :=
  { id := r.id
    customer_name := r.customer_name
    email := r.email
    phone := r.phone
    company_name := r.company_name
    reference := r.reference
    street_address := r.street_address
    city := r.city
    state_province := r.state_province
    postal_code := r.postal_code
    country := r.country
    fabric_selections := r.fabric_selections
    additional_notes := r.additional_notes
    status := r.status
    date_submitted := r.date_submitted
    date_dispatched := r.date_dispatched }

/-- `ArchivedRequest.to_dict` (`models.py` lines 97–117). -/
def ArchivedRequest.to_dict (a : ArchivedRequest) : ArchivedData :=
  { id := a.id
    original_id := a.original_id
    customer_name := a.customer_name
    email := a.email
    phone := a.phone
    company_name := a.company_name
    reference := a.reference
    street_address := a.street_address
    city := a.city
    state_province := a.state_province
    postal_code := a.postal_code
    country := a.country
    fabric_selections := a.fabric_selections
    additional_notes := a.additional_notes
    status := a.status
    date_submitted := a.date_submitted
    date_dispatched := a.date_dispatched
    date_archived := a.date_archived }

/-- One entry of the JSON audit log (`data_integrity.py` lines 80–87);
the write-only `checksum` field is omitted (see module comment). -/
structure AuditEntry where
  timestamp : Int
  operation : String
  table : String
  record_id : Nat
  data : RequestData
deriving DecidableEq

/-- The audit-log file `data_audit_log.json`: absent from disk, present but
unparseable (so `json.load` raises), or parsed contents. -/
inductive AuditFile where
  | missing
  | corrupt
  | ok (entries : List AuditEntry)
deriving DecidableEq

/-- The two logical tables as one session view. -/
structure Tables where
  active : List Request
  archived : List ArchivedRequest
deriving DecidableEq

/-- The database with its SQLAlchemy session: `cur` is what flushed
statements and queries see inside the open transaction, `committed` is the
durable state.  `nextId` / `nextArchId` model the primary-key sequences of
the two tables (sequences are not rolled back). -/
structure DBState where
  cur : Tables
  committed : Tables
  nextId : Nat
  nextArchId : Nat
deriving DecidableEq

/-- `db.session.commit()`: make the in-transaction view durable. -/
def commitDB (st : DBState) : DBState :=
  { st with committed := st.cur }

/-- `db.session.rollback()`: discard uncommitted work. -/
def rollbackDB (st : DBState) : DBState :=
  { st with cur := st.committed }

/-- `DataIntegrityManager._log_operation` (`data_integrity.py` lines 78–109):
read-modify-write the whole file, truncated to the newest 10000 entries.
A missing file is treated as the empty log and created; an unparseable file
makes `json.load` raise, the exception is caught and logged, and the file is
left as it was. -/
def log_operation (file : AuditFile) (e : AuditEntry) : AuditFile :=
  match file with
  | AuditFile.missing =>
      AuditFile.ok [e]
  | AuditFile.corrupt =>
      AuditFile.corrupt
  | AuditFile.ok entries =>
      let entries := entries ++ [e]
      AuditFile.ok (if entries.length > 10000 then entries.drop (entries.length - 10000) else entries)

/-- Build an audit entry the way `_log_operation` is invoked by the event
listeners in `data_integrity.py`. -/
def mkEntry (now : Int) (operationKind tableName : String) (rid : Nat) (d : RequestData) : AuditEntry :=
  { timestamp := now, operation := operationKind, table := tableName, record_id := rid, data := d }

/-- The exception type raised by the delete-interception listeners
(`data_integrity.py` lines 20–22, 43–64).  The payload records which record
the violation message names. -/
inductive DataIntegrityError where
  | unauthorizedDelete (id : Nat)
  | archivedDelete (original_id : Nat)
deriving DecidableEq

/-- The `before_delete` listener on `SampleRequest` (`data_integrity.py`
lines 43–55).  `hasToken` is `hasattr(target, '_archiving_in_progress')`.
Without the token the delete raises; with it the archiving operation is
appended to the audit-log file and the delete proceeds. -/
def receive_before_delete (hasToken : Bool) (now : Int) (target : Request)
    (file : AuditFile) : Except DataIntegrityError AuditFile :=
  if hasToken then
    Except.ok (log_operation file (mkEntry now "archive" "SampleRequest" target.id target.to_dict))
  else
    Except.error (DataIntegrityError.unauthorizedDelete target.id)

/-- The `before_delete` listener on `ArchivedRequest` (`data_integrity.py`
lines 58–64): raises unconditionally, whatever the target or context. -/
def receive_archived_delete (target : ArchivedRequest) : Except DataIntegrityError Unit :=
  Except.error (DataIntegrityError.archivedDelete target.original_id)

/-- Where `verify_record_exists` found a record (`data_integrity.py`
lines 116–132). -/
inductive RecordLocation where
  | active (r : Request)
  | archivedLoc (a : ArchivedRequest)
  | audit_log (e : AuditEntry)
deriving DecidableEq

/-- `DataIntegrityManager._check_audit_log_for_record` (`data_integrity.py`
lines 134–153): reverse scan for the most recent entry whose `record_id`
matches — with no filter on the entry's table or operation.  A missing file
yields nothing; a corrupt file raises inside the local `try`, the exception
is caught, and nothing is returned. -/
def check_audit_log_for_record (file : AuditFile) (rid : Nat) : Option AuditEntry :=
  match file with
  | AuditFile.missing => none
  | AuditFile.corrupt => none
  | AuditFile.ok entries => entries.reverse.find? (fun e => e.record_id == rid)

/-- `DataIntegrityManager.verify_record_exists` (`data_integrity.py`
lines 116–132): active table first, then the archive table by
`original_id`, then the audit log. -/
def verify_record_exists (t : Tables) (file : AuditFile) (original_id : Nat) :
    Option RecordLocation :=
  match t.active.find? (fun r => r.id == original_id) with
  | some r => some (RecordLocation.active r)
  | none =>
    match t.archived.find? (fun a => a.original_id == original_id) with
    | some a => some (RecordLocation.archivedLoc a)
    | none =>
      match check_audit_log_for_record file original_id with
      | some e => some (RecordLocation.audit_log e)
      | none => none

/-- The per-key copy loop of `recover_from_audit_log` (`data_integrity.py`
lines 166–173), shared verbatim by `restore_from_backup`
(`database_recovery.py` lines 222–228): every snapshot key that is an
attribute of a fresh `SampleRequest` is copied except `id`; the two date
keys are parsed from their textual form (the identity in this model).
`iliv_email_sent` is absent from the snapshot, so the column default
`False` applies, and the new row receives the fresh primary key `newId`. -/
def requestFromData (newId : Nat) (d : RequestData) : Request :=
  { id := newId
    customer_name := d.customer_name
    email := d.email
    phone := d.phone
    company_name := d.company_name
    reference := d.reference
    street_address := d.street_address
    city := d.city
    state_province := d.state_province
    postal_code := d.postal_code
    country := d.country
    fabric_selections := d.fabric_selections
    additional_notes := d.additional_notes
    status := d.status
    date_submitted := d.date_submitted
    date_dispatched := d.date_dispatched
    iliv_email_sent := false }

/-- `DataIntegrityManager.recover_from_audit_log` (`data_integrity.py`
lines 155–184): look the id up in the audit-log file; if an entry is found
(whatever its table or operation), rebuild an active row from its snapshot
via the copy loop, `add` it and `commit`.  The commit flushes, so the
`after_insert` listener appends an `insert` entry for the new row to the
file.  Returns the success boolean; exceptions are caught inside (none
arise from the well-typed snapshots of this model). -/
def recover_from_audit_log (now : Int) (st : DBState) (file : AuditFile) (rid : Nat) :
    Bool × DBState × AuditFile :=
  match check_audit_log_for_record file rid with
  | none => (false, st, file)
  | some e =>
      let r := requestFromData st.nextId e.data
      let st := { st with
        cur := { st.cur with active := st.cur.active ++ [r] }
        nextId := st.nextId + 1 }
      let file := log_operation file (mkEntry now "insert" "SampleRequest" r.id r.to_dict)
      (true, commitDB st, file)

/-- The issue strings accumulated by `perform_integrity_check`
(`data_integrity.py` lines 186–243), one constructor per `issues.append`
site. -/
inductive Issue where
  | duplicates (ids : List Nat)
  | missingFromAudit (ids : List Nat)
  | recoveredRecord (id : Nat)
  | staleUnarchived (count : Nat)
  | constraintsWeak
deriving DecidableEq

/-- The verdict of `perform_integrity_check`. -/
inductive IntegrityStatus where
  | healthy
  | issues_found
  | error
deriving DecidableEq

/-- The dictionary returned by `perform_integrity_check` (timestamp and the
error string are omitted; the status and the issue list are what every
caller reads). -/
structure IntegrityResult where
  status : IntegrityStatus
  issues : List Issue
deriving DecidableEq

/-- Pass 2 id collection (`data_integrity.py` lines 207–210): the ids of
all entries on the `SampleRequest` table whose operation is not `archive`,
deduplicated (a Python set; first-seen order is the model's canonical
iteration order). -/
def collectIds (entries : List AuditEntry) : List Nat :=
  entries.foldl
    (fun acc e =>
      if e.table == "SampleRequest" && e.operation != "archive" then
        if e.record_id ∈ acc then acc else acc ++ [e.record_id]
      else acc)
    []

/-- Pass 1 (`data_integrity.py` lines 192–200): ids present in the active
table whose value also occurs among the archive table's `original_id`s. -/
def dupIds (t : Tables) : List Nat :=
  (t.active.map (fun r => r.id)).filter
    (fun i => (t.archived.map (fun a => a.original_id)).contains i)

/-- The union of current active ids and archived `original_id`s
(`all_db_ids`, `data_integrity.py` line 212). -/
def allDbIds (t : Tables) : List Nat :=
  t.active.map (fun r => r.id) ++ t.archived.map (fun a => a.original_id)

/-- Pass 3 (`data_integrity.py` lines 222–229): active records with status
`Dispatched` dispatched strictly more than 120 days ago — a cutoff fixed at
120 days here regardless of the archiver's `months_before_archive`. -/
def staleCount (now : Int) (t : Tables) : Nat :=
  (t.active.filter
    (fun r => r.status == "Dispatched" &&
      match r.date_dispatched with
      | some d => decide (d < now - 120)
      | none => false)).length

/-- Passes 3 and 4 plus result assembly (`data_integrity.py` lines
222–243).  The constraint pass executes `SELECT 1`, which succeeds whenever
the database is reachable; connectivity failure is outside this state
model, so no `constraintsWeak` issue arises here. -/
def integrityFinish (now : Int) (st : DBState) (file : AuditFile) (issues : List Issue) :
    IntegrityResult × DBState × AuditFile :=
  let n := staleCount now st.cur
  let issues := if n > 0 then issues ++ [Issue.staleUnarchived n] else issues
  ({ status := if issues.isEmpty then IntegrityStatus.healthy else IntegrityStatus.issues_found
     issues := issues }, st, file)

/-- The recovery loop of pass 2 (`data_integrity.py` lines 218–220): try
`recover_from_audit_log` for every missing id, appending a success issue
for each recovery.  Each successful recovery commits the session. -/
def recoverFold (now : Int) :
    List Nat → List Issue → DBState → AuditFile → List Issue × DBState × AuditFile
  | [], issues, st, file => (issues, st, file)
  | i :: rest, issues, st, file =>
      match recover_from_audit_log now st file i with
      | (true, st, file) => recoverFold now rest (issues ++ [Issue.recoveredRecord i]) st file
      | (false, st, file) => recoverFold now rest issues st file

/-- `DataIntegrityManager.perform_integrity_check` (`data_integrity.py`
lines 186–251).  Pass 1 intersects active ids with archived original ids;
pass 2 reads the audit-log file — a missing file skips the pass, an
unparseable file makes `json.load` raise and the outer `except` turn the
verdict into `error`; ids logged with a non-archive operation but present
in neither table are reported and recovery (which commits!) is attempted
for each; pass 3 counts stale dispatched records against the fixed 120-day
cutoff; pass 4 runs `SELECT 1`.  The verdict is `healthy` exactly when no
issue was accumulated. -/
def perform_integrity_check (now : Int) (st : DBState) (file : AuditFile) :
    IntegrityResult × DBState × AuditFile :=
  let duplicates := dupIds st.cur
  let issues1 := if duplicates.isEmpty then [] else [Issue.duplicates duplicates]
  match file with
  | AuditFile.corrupt =>
      ({ status := IntegrityStatus.error, issues := [] }, st, file)
  | AuditFile.missing =>
      integrityFinish now st file issues1
  | AuditFile.ok entries =>
      let missing := (collectIds entries).filter (fun i => !((allDbIds st.cur).contains i))
      if missing.isEmpty then
        integrityFinish now st file issues1
      else
        match recoverFold now missing (issues1 ++ [Issue.missingFromAudit missing]) st file with
        | (issues2, st2, file2) => integrityFinish now st2 file2 issues2

/-- Database statements issued by the archiver's per-record block, recorded
as a trace so the ordering properties of the block can be stated. -/
inductive DbOp where
  | insertArchive (a : ArchivedRequest)
  | flush
  | confirmQuery (original_id : Nat) (found : Bool)
  | deleteActive (id : Nat)
deriving DecidableEq

/-- Outcome of one iteration of the archiver's per-record loop. -/
inductive StepOutcome where
  | archivedOk
  | failed
deriving DecidableEq

/-- Build the archive row exactly as the `ArchivedRequest(...)` constructor
call at `database_maintenance.py` lines 50–67 does: every listed field is
copied from the request; `iliv_email_sent` is NOT listed there, so the
column default `False` applies; `date_archived` defaults to the current
time. -/
def mkArchivedRow (archId : Nat) (now : Int) (r : Request) (d : Int) : ArchivedRequest :=
  { id := archId
    original_id := r.id
    customer_name := r.customer_name
    email := r.email
    phone := r.phone
    company_name := r.company_name
    reference := r.reference
    street_address := r.street_address
    city := r.city
    state_province := r.state_province
    postal_code := r.postal_code
    country := r.country
    fabric_selections := r.fabric_selections
    additional_notes := r.additional_notes
    status := r.status
    date_submitted := r.date_submitted
    date_dispatched := d
    iliv_email_sent := false
    date_archived := now }

/-- One iteration of the per-record loop of `archive_dispatched_requests`
(`database_maintenance.py` lines 37–92).  `failRec r.id = true` models an
exception thrown in the block before any session mutation (caught at lines
88–92: the id joins the failed list and the loop continues).  Otherwise:
verify the record is still in the active table; build the archive row
(a `NULL` dispatch date would be rejected by the archive schema and
is treated as the per-record exception it would raise); `add` + `flush` it;
confirm the insert by querying the archive table on `original_id`; only
then delete the active row — firing the `before_delete` listener with the
`_archiving_in_progress` token set at line 70, which appends the `archive`
audit entry — and flush again.  The returned trace records the statements
issued. -/
def archiveStep (failRec : Nat → Bool) (now : Int) (st : DBState) (file : AuditFile)
    (r : Request) : StepOutcome × DBState × AuditFile × List DbOp :=
  if failRec r.id then (StepOutcome.failed, st, file, [])
  else
    match verify_record_exists st.cur file r.id with
    | some (RecordLocation.active _) =>
        match r.date_dispatched with
        | none => (StepOutcome.failed, st, file, [])
        | some d =>
            let a := mkArchivedRow st.nextArchId now r d
            let st1 := { st with
              cur := { st.cur with archived := st.cur.archived ++ [a] }
              nextArchId := st.nextArchId + 1 }
            match st1.cur.archived.find? (fun x => x.original_id == r.id) with
            | none =>
                (StepOutcome.failed, st1, file,
                  [DbOp.insertArchive a, DbOp.flush, DbOp.confirmQuery r.id false])
            | some _ =>
                match receive_before_delete true now r file with
                | Except.error _ => (StepOutcome.failed, st1, file,
                    [DbOp.insertArchive a, DbOp.flush, DbOp.confirmQuery r.id true])
                | Except.ok file1 =>
                    let st2 := { st1 with
                      cur := { st1.cur with
                        active := st1.cur.active.filter (fun x => x.id != r.id) } }
                    (StepOutcome.archivedOk, st2, file1,
                      [DbOp.insertArchive a, DbOp.flush, DbOp.confirmQuery r.id true,
                        DbOp.deleteActive r.id, DbOp.flush])
    | _ => (StepOutcome.failed, st, file, [])

/-- The selection predicate of `archive_dispatched_requests`
(`database_maintenance.py` lines 29–32): status `Dispatched` and a dispatch
date strictly before the cutoff (a SQL comparison, false on `NULL`). -/
def selectionFilter (cutoff : Int) (r : Request) : Bool :=
  r.status == "Dispatched" &&
    match r.date_dispatched with
    | some d => decide (d < cutoff)
    | none => false

/-- The candidate query of `archive_dispatched_requests`
(`database_maintenance.py` lines 29–32); `with_for_update` row locks are a
no-op in this single-session model. -/
def candidateRequests (months : Nat) (now : Int) (t : Tables) : List Request :=
  t.active.filter (selectionFilter (now - (months : Int) * 30))

/-- The per-record loop (`database_maintenance.py` lines 37–92), threading
the archived count, the failed-id list, the session and the audit file. -/
def archiveLoop (failRec : Nat → Bool) (now : Int) :
    List Request → Nat → List Nat → DBState → AuditFile →
      Nat × List Nat × DBState × AuditFile
  | [], count, failed, st, file => (count, failed, st, file)
  | r :: rest, count, failed, st, file =>
      match archiveStep failRec now st file r with
      | (StepOutcome.archivedOk, st, file, _) =>
          archiveLoop failRec now rest (count + 1) failed st file
      | (StepOutcome.failed, st, file, _) =>
          archiveLoop failRec now rest count (failed ++ [r.id]) st file

/-- Result of one run of `archive_dispatched_requests`.  `returnedCount` is
the function's return value; `loopCount` the number of records the loop
moved (before the end-of-batch gate); `integrity` the end-of-batch check
result when it ran. -/
structure ArchiveRunResult where
  returnedCount : Nat
  failed : List Nat
  loopCount : Nat
  integrity : Option IntegrityResult
  state : DBState
  file : AuditFile
deriving DecidableEq

/-- `archive_dispatched_requests` (`database_maintenance.py` lines 9–113):
select the candidates, run the per-record loop, and — when at least one
record was moved — run `perform_integrity_check`; commit on a `healthy`
verdict, otherwise roll the session back and return 0.  When nothing was
moved the session is neither committed nor rolled back and the loop count
(zero) is returned. -/
def archive_dispatched_requests (months : Nat) (now : Int) (st : DBState)
    (file : AuditFile) (failRec : Nat → Bool) : ArchiveRunResult :=
  let candidates := candidateRequests months now st.cur
  match archiveLoop failRec now candidates 0 [] st file with
  | (count, failed, st1, file1) =>
    if 0 < count then
      match perform_integrity_check now st1 file1 with
      | (res, st2, file2) =>
        match res.status with
        | IntegrityStatus.healthy =>
            { returnedCount := count, failed := failed, loopCount := count
              integrity := some res, state := commitDB st2, file := file2 }
        | _ =>
            { returnedCount := 0, failed := failed, loopCount := count
              integrity := some res, state := rollbackDB st2, file := file2 }
    else
      { returnedCount := count, failed := failed, loopCount := count
        integrity := none, state := st1, file := file1 }

/-- The parsed contents of a backup snapshot file (`database_recovery.py`
lines 209–212, written by `create_backup_snapshot`): the two record lists
as their `to_dict` dictionaries. -/
structure BackupData where
  active_records : List RequestData
  archived_records : List ArchivedData
deriving DecidableEq

/-- The dictionary returned by `restore_from_backup` (`database_recovery.py`
lines 254–263); the error / message strings are not modelled. -/
structure RestoreResult where
  success : Bool
  restoredActive : Nat
  restoredArchived : Nat
deriving DecidableEq

/-- The per-key copy loop for an archived snapshot entry
(`database_recovery.py` lines 241–247): every key except `id` is copied —
`original_id` included — with the three date keys parsed from text;
`iliv_email_sent` is absent from `ArchivedRequest.to_dict`, so the column
default `False` applies, and the row receives a fresh primary key. -/
def archivedFromData (newId : Nat) (d : ArchivedData) : ArchivedRequest :=
  { id := newId
    original_id := d.original_id
    customer_name := d.customer_name
    email := d.email
    phone := d.phone
    company_name := d.company_name
    reference := d.reference
    street_address := d.street_address
    city := d.city
    state_province := d.state_province
    postal_code := d.postal_code
    country := d.country
    fabric_selections := d.fabric_selections
    additional_notes := d.additional_notes
    status := d.status
    date_submitted := d.date_submitted
    date_dispatched := d.date_dispatched
    iliv_email_sent := false
    date_archived := d.date_archived }

/-- The active-records loop of `restore_from_backup` (`database_recovery.py`
lines 215–231): for each snapshot entry, `SampleRequest.query.get(id)`
(an autoflushing primary-key lookup, so pending adds are visible); when
absent, rebuild the row via the copy loop — the new row gets a FRESH id,
the snapshot `id` key being excluded — and `add` it.  The rebuilt rows are
accumulated so the `after_insert` listener can log them at commit time. -/
def restoreActiveLoop :
    List RequestData → Tables → Nat → List Request → Tables × Nat × List Request
  | [], t, nid, ins => (t, nid, ins)
  | d :: rest, t, nid, ins =>
      if t.active.any (fun r => r.id == d.id) then
        restoreActiveLoop rest t nid ins
      else
        let r := requestFromData nid d
        restoreActiveLoop rest { t with active := t.active ++ [r] } (nid + 1) (ins ++ [r])

/-- The archived-records loop of `restore_from_backup`
(`database_recovery.py` lines 234–250): the existence check is
`filter_by(original_id=...)`, and `original_id` IS copied into the new row
(only `id` is excluded), so re-restoring the same snapshot finds the copy. -/
def restoreArchivedLoop :
    List ArchivedData → Tables → Nat → List ArchivedRequest →
      Tables × Nat × List ArchivedRequest
  | [], t, naid, ins => (t, naid, ins)
  | d :: rest, t, naid, ins =>
      if t.archived.any (fun a => a.original_id == d.original_id) then
        restoreArchivedLoop rest t naid ins
      else
        let a := archivedFromData naid d
        restoreArchivedLoop rest { t with archived := t.archived ++ [a] } (naid + 1) (ins ++ [a])

/-- `EmergencyRecovery.restore_from_backup` (`database_recovery.py` lines
203–263).  `backup = none` models a missing or unreadable snapshot file.
`boom = true` models an exception raised while processing entries: nothing
was committed or written to the audit file at that point, so the `except`
branch (lines 260–263) rolls the session back and reports failure —
wherever in the body the exception occurred.  Otherwise both loops run, and
the single `commit` at the end flushes the restored active rows, firing
`after_insert` for each in insertion order. -/
def restore_from_backup (now : Int) (st : DBState) (file : AuditFile)
    (backup : Option BackupData) (boom : Bool) :
    RestoreResult × DBState × AuditFile :=
  match backup with
  | none => ({ success := false, restoredActive := 0, restoredArchived := 0 }, st, file)
  | some b =>
      if boom then
        ({ success := false, restoredActive := 0, restoredArchived := 0 }, rollbackDB st, file)
      else
        match restoreActiveLoop b.active_records st.cur st.nextId [] with
        | (t1, nid1, insA) =>
          match restoreArchivedLoop b.archived_records t1 st.nextArchId [] with
          | (t2, naid1, insAr) =>
            let st1 := { st with cur := t2, nextId := nid1, nextArchId := naid1 }
            let file1 := insA.foldl
              (fun f r => log_operation f (mkEntry now "insert" "SampleRequest" r.id r.to_dict))
              file
            ({ success := true, restoredActive := insA.length, restoredArchived := insAr.length },
              commitDB st1, file1)

/-- A Python value as seen by callers of the orchestrator: enough structure
to distinguish a wrapped operation's own return value from the result
dictionary the wrapper builds. -/
inductive PyVal where
  | int (n : Int)
  | str (s : String)
  | boolV (b : Bool)
  | noneV
  | dict (entries : List (String × PyVal))

/-- A raised Python exception: its class name and its message. -/
structure PyExc where
  kind : String
  msg : String
deriving DecidableEq

/-- `BackupOrchestrator.execute_with_safeguards` (`backup_orchestrator.py`
lines 305–346).  The collaborating steps are environment parameters:
`preBackup` the outcome of `pre_operation_backup` (a backup id, or the
exception it raised), `operation` the wrapped call — a thunk, evaluated
only after a successful backup — and `postVerification` the outcome of
`post_operation_verification`.  Any exception from the three steps is
caught at lines 342–346 and re-raised as a `RuntimeError` whose message
wraps the original's; on success the caller receives the comprehensive
result dictionary of lines 333–340, the operation's own return value
appearing under the `operation_result` key. -/
def execute_with_safeguards (operation_name : String)
    (preBackup : Except PyExc String)
    (operation : Unit → Except PyExc PyVal)
    (postVerification : Except PyExc PyVal) : Except PyExc PyVal :=
  let wrap : PyExc → Except PyExc PyVal := fun e =>
    Except.error
      { kind := "RuntimeError"
        msg := "CRITICAL: Safeguarded operation " ++ operation_name ++ " failed: " ++ e.msg }
  match preBackup with
  | Except.error e => wrap e
  | Except.ok backup_id =>
    match operation () with
    | Except.error e => wrap e
    | Except.ok opResult =>
      match postVerification with
      | Except.error e => wrap e
      | Except.ok verification =>
          Except.ok (PyVal.dict
            [("status", PyVal.str "success"),
             ("operation_name", PyVal.str operation_name),
             ("operation_result", opResult),
             ("backup_id", PyVal.str backup_id),
             ("verification", verification),
             ("safeguards_applied", PyVal.boolV true)])

/-! ## Concrete scenarios

Shared fixtures: a common `now` of 1000 (days), records dispatched 200,
300 and 10 days earlier, an empty store, and audit-log / snapshot files
used by the witnesses and counterexamples below. -/

/-- A record dispatched 200 days before the reference time, with the
supplier-notification flag set. -/
def demoRequest : Request :=
  { id := 1, customer_name := "Ann Smith", email := "ann@example.com", phone := none
    company_name := "TAITS INTERIORS", reference := none, street_address := "1 High St"
    city := "Hobart", state_province := "TAS", postal_code := "7000", country := "Australia"
    fabric_selections := "[]", additional_notes := none, status := "Dispatched"
    date_submitted := 700, date_dispatched := some 800, iliv_email_sent := true }

/-- A record dispatched 10 days before the reference time. -/
def demoRecent : Request :=
  { demoRequest with id := 2, date_dispatched := some 990, iliv_email_sent := false }

/-- A second old candidate (dispatched 300 days before the reference time). -/
def demoThird : Request :=
  { demoRequest with id := 3, date_dispatched := some 700 }

/-- A snapshot for an id (999) present in no table — the post-data-loss
situation the audit log exists for. -/
def orphanSnapshot : RequestData :=
  { id := 999, customer_name := "Bob Jones", email := "bob@example.com", phone := none
    company_name := "Suzanne Brennan", reference := none, street_address := "2 Low St"
    city := "Perth", state_province := "WA", postal_code := "6000", country := "Australia"
    fabric_selections := "[]", additional_notes := none, status := "Outstanding"
    date_submitted := 900, date_dispatched := none }

/-- An empty store with a clean session. -/
def emptyState : DBState :=
  { cur := { active := [], archived := [] }, committed := { active := [], archived := [] }
    nextId := 1, nextArchId := 1 }

/-- One old dispatched record, clean session. -/
def demoState1 : DBState :=
  { cur := { active := [demoRequest], archived := [] }
    committed := { active := [demoRequest], archived := [] }, nextId := 2, nextArchId := 1 }

/-- The two-record selection scenario (200 days vs 10 days), clean session. -/
def demoState2 : DBState :=
  { cur := { active := [demoRequest, demoRecent], archived := [] }
    committed := { active := [demoRequest, demoRecent], archived := [] }
    nextId := 3, nextArchId := 1 }

/-- Two old candidates (ids 1 and 3), clean session. -/
def demoState3 : DBState :=
  { cur := { active := [demoRequest, demoThird], archived := [] }
    committed := { active := [demoRequest, demoThird], archived := [] }
    nextId := 4, nextArchId := 1 }

/-- An audit log holding one `insert` entry for the orphan id 999. -/
def orphanFile : AuditFile :=
  AuditFile.ok [mkEntry 950 "insert" "SampleRequest" 999 orphanSnapshot]

/-- An audit log whose only entry for id 1 is an `archive` operation. -/
def archiveOpFile : AuditFile :=
  AuditFile.ok [mkEntry 950 "archive" "SampleRequest" 1 demoRequest.to_dict]

/-- The two-record archiver run with no audit file and no injected
failures (the §8 selection scenario). -/
def demoRunHealthy : ArchiveRunResult :=
  archive_dispatched_requests 4 1000 demoState2 AuditFile.missing (fun _ => false)

/-- The single-record archiver run used for the field-preservation check. -/
def demoRunSingle : ArchiveRunResult :=
  archive_dispatched_requests 4 1000 demoState1 AuditFile.missing (fun _ => false)

/-- The archiver run in which the end-of-batch check finds the orphan
audit id and its recovery commits mid-check. -/
def demoRunOrphan : ArchiveRunResult :=
  archive_dispatched_requests 4 1000 demoState1 orphanFile (fun _ => false)

/-- Two old candidates and an injected per-record failure on id 3, with the
orphan audit entry present. -/
def demoRunPartial : ArchiveRunResult :=
  archive_dispatched_requests 4 1000 demoState3 orphanFile (fun i => i == 3)

/-- Two old candidates and an injected per-record failure on id 3, benign
audit file. -/
def demoRunPartialClean : ArchiveRunResult :=
  archive_dispatched_requests 4 1000 demoState3 AuditFile.missing (fun i => i == 3)

/-- A backup snapshot holding one active record whose snapshot id (5) does
not match the id the restore will assign. -/
def demoBackup : BackupData :=
  { active_records := [{ orphanSnapshot with id := 5 }], archived_records := [] }

/-- First application of `demoBackup` to the empty store. -/
def restoreOnce : RestoreResult × DBState × AuditFile :=
  restore_from_backup 1000 emptyState AuditFile.missing (some demoBackup) false

/-- Second application of the same snapshot to the restored store. -/
def restoreTwice : RestoreResult × DBState × AuditFile :=
  restore_from_backup 1000 restoreOnce.2.1 restoreOnce.2.2 (some demoBackup) false

/-! ## Preservation lemmas -/

/-- `_log_operation` never turns a readable or absent file into an
unreadable one. -/
theorem log_operation_ne_corrupt {file : AuditFile} (e : AuditEntry)
    (h : file ≠ AuditFile.corrupt) : log_operation file e ≠ AuditFile.corrupt := by
  cases file with
  | missing => simp [log_operation]
  | corrupt => exact absurd rfl h
  | ok l => simp [log_operation]

/-- The per-record block never commits: the durable state is untouched. -/
theorem archiveStep_committed (failRec : Nat → Bool) (now : Int) (st : DBState)
    (file : AuditFile) (r : Request) :
    (archiveStep failRec now st file r).2.1.committed = st.committed := by
  unfold archiveStep
  dsimp only
  repeat' split
  all_goals rfl

/-- The per-record block leaves a non-corrupt audit file non-corrupt. -/
theorem archiveStep_file_ne_corrupt (failRec : Nat → Bool) (now : Int) (st : DBState)
    {file : AuditFile} (r : Request) (h : file ≠ AuditFile.corrupt) :
    (archiveStep failRec now st file r).2.2.1 ≠ AuditFile.corrupt := by
  unfold archiveStep
  dsimp only
  repeat' split
  all_goals try exact h
  all_goals
    rename_i file1 heq
    simp only [receive_before_delete, if_true] at heq
    cases heq
    exact log_operation_ne_corrupt _ h

/-- A record whose id the failure oracle rejects is never removed from the
active table by another record's per-record block. -/
theorem archiveStep_mem_active (failRec : Nat → Bool) (now : Int) (st : DBState)
    (file : AuditFile) (r' r : Request) (hf : failRec r.id = true)
    (hm : r ∈ st.cur.active) :
    r ∈ (archiveStep failRec now st file r').2.1.cur.active := by
  unfold archiveStep
  dsimp only
  split
  · exact hm
  next hfr =>
    repeat' split
    all_goals try exact hm
    refine List.mem_filter.mpr ⟨hm, ?_⟩
    simp only [bne_iff_ne, ne_eq]
    intro hid
    exact hfr (hid ▸ hf)

/-- The per-record loop never commits. -/
theorem archiveLoop_committed (failRec : Nat → Bool) (now : Int) (rs : List Request) :
    ∀ count failed st file,
      (archiveLoop failRec now rs count failed st file).2.2.1.committed = st.committed := by
  induction rs with
  | nil => intro count failed st file; rfl
  | cons r rest ih =>
      intro count failed st file
      unfold archiveLoop
      rcases h : archiveStep failRec now st file r with ⟨o, st1, file1, tr⟩
      have hc := archiveStep_committed failRec now st file r
      rw [h] at hc
      cases o with
      | archivedOk => rw [ih (count + 1) failed st1 file1]; exact hc
      | failed => rw [ih count (failed ++ [r.id]) st1 file1]; exact hc

/-- The per-record loop keeps a non-corrupt audit file non-corrupt. -/
theorem archiveLoop_file_ne_corrupt (failRec : Nat → Bool) (now : Int) (rs : List Request) :
    ∀ count failed st (file : AuditFile), file ≠ AuditFile.corrupt →
      (archiveLoop failRec now rs count failed st file).2.2.2 ≠ AuditFile.corrupt := by
  induction rs with
  | nil => intro count failed st file h; exact h
  | cons r rest ih =>
      intro count failed st file h
      unfold archiveLoop
      rcases heq : archiveStep failRec now st file r with ⟨o, st1, file1, tr⟩
      have hf := archiveStep_file_ne_corrupt failRec now st r h
      rw [heq] at hf
      cases o with
      | archivedOk => exact ih (count + 1) failed st1 file1 hf
      | failed => exact ih count (failed ++ [r.id]) st1 file1 hf

/-- An oracle-failed record survives the whole per-record loop in the
active table. -/
theorem archiveLoop_mem_active (failRec : Nat → Bool) (now : Int) (rs : List Request)
    (r : Request) (hf : failRec r.id = true) :
    ∀ count failed st file, r ∈ st.cur.active →
      r ∈ (archiveLoop failRec now rs count failed st file).2.2.1.cur.active := by
  induction rs with
  | nil => intro count failed st file hm; exact hm
  | cons r' rest ih =>
      intro count failed st file hm
      unfold archiveLoop
      rcases heq : archiveStep failRec now st file r' with ⟨o, st1, file1, tr⟩
      have hmem := archiveStep_mem_active failRec now st file r' r hf hm
      rw [heq] at hmem
      cases o with
      | archivedOk => exact ih (count + 1) failed st1 file1 hmem
      | failed => exact ih count (failed ++ [r'.id]) st1 file1 hmem

/-- Audit-log recovery only ever appends to the active table. -/
theorem recover_mem_active (now : Int) (st : DBState) (file : AuditFile) (i : Nat)
    (r : Request) (hm : r ∈ st.cur.active) :
    r ∈ (recover_from_audit_log now st file i).2.1.cur.active := by
  unfold recover_from_audit_log
  split
  · exact hm
  · exact List.mem_append_left _ hm

/-- The pass-2 recovery loop only ever appends to the active table. -/
theorem recoverFold_mem_active (now : Int) (ids : List Nat) :
    ∀ issues st file (r : Request), r ∈ st.cur.active →
      r ∈ (recoverFold now ids issues st file).2.1.cur.active := by
  induction ids with
  | nil => intro issues st file r hm; exact hm
  | cons i rest ih =>
      intro issues st file r hm
      unfold recoverFold
      rcases heq : recover_from_audit_log now st file i with ⟨b, st1, file1⟩
      have hmem := recover_mem_active now st file i r hm
      rw [heq] at hmem
      cases b with
      | true => exact ih (issues ++ [Issue.recoveredRecord i]) st1 file1 r hmem
      | false => exact ih issues st1 file1 r hmem

/-- The pass-2 recovery loop only ever appends to the issue list. -/
theorem recoverFold_mem_issues (now : Int) (ids : List Nat) :
    ∀ issues st file (x : Issue), x ∈ issues →
      x ∈ (recoverFold now ids issues st file).1 := by
  induction ids with
  | nil => intro issues st file x hx; exact hx
  | cons i rest ih =>
      intro issues st file x hx
      unfold recoverFold
      rcases heq : recover_from_audit_log now st file i with ⟨b, st1, file1⟩
      cases b with
      | true => exact ih (issues ++ [Issue.recoveredRecord i]) st1 file1 x (List.mem_append_left _ hx)
      | false => exact ih issues st1 file1 x hx

/-- Passes 3–4 do not touch the session or the file. -/
theorem integrityFinish_state (now : Int) (st : DBState) (file : AuditFile)
    (issues : List Issue) :
    (integrityFinish now st file issues).2.1 = st ∧
      (integrityFinish now st file issues).2.2 = file := by
  unfold integrityFinish
  dsimp only
  exact ⟨rfl, rfl⟩

/-- Result assembly preserves the accumulated issues. -/
theorem mem_integrityFinish_issues (now : Int) (st : DBState) (file : AuditFile)
    (issues : List Issue) (x : Issue) (hx : x ∈ issues) :
    x ∈ (integrityFinish now st file issues).1.issues := by
  unfold integrityFinish
  dsimp only
  split
  · exact List.mem_append_left _ hx
  · exact hx

/-- A positive stale count always surfaces: pass 3 appends its issue and
the verdict cannot be `healthy`. -/
theorem integrityFinish_stale (now : Int) (st : DBState) (file : AuditFile)
    (issues : List Issue) (h : 0 < staleCount now st.cur) :
    Issue.staleUnarchived (staleCount now st.cur) ∈ (integrityFinish now st file issues).1.issues ∧
      (integrityFinish now st file issues).1.status = IntegrityStatus.issues_found := by
  unfold integrityFinish
  dsimp only
  rw [if_pos h]
  constructor
  · exact List.mem_append_right _ (List.mem_singleton.mpr rfl)
  · simp

/-- A dispatched record older than the fixed 120-day cutoff makes the
stale count positive. -/
theorem staleCount_pos (now : Int) (t : Tables) (r : Request) (d : Int)
    (hr : r ∈ t.active) (hs : r.status = "Dispatched")
    (hd : r.date_dispatched = some d) (hlt : d < now - 120) :
    0 < staleCount now t := by
  unfold staleCount
  refine List.length_pos_of_mem (a := r) (List.mem_filter.mpr ⟨hr, ?_⟩)
  rw [hs, hd]
  simp [hlt]

/-- If the check reports no missing-from-audit issue, pass 2 attempted no
recovery, so the check mutated neither the session nor the file. -/
theorem perform_integrity_check_no_missing (now : Int) (st : DBState) (file : AuditFile)
    (h : ∀ ids, Issue.missingFromAudit ids ∉ (perform_integrity_check now st file).1.issues) :
    (perform_integrity_check now st file).2.1 = st ∧
      (perform_integrity_check now st file).2.2 = file := by
  unfold perform_integrity_check at h ⊢
  cases file with
  | corrupt => exact ⟨rfl, rfl⟩
  | missing => exact integrityFinish_state now st AuditFile.missing _
  | ok entries =>
      dsimp only at h ⊢
      by_cases hm :
          (List.filter (fun i => !((allDbIds st.cur).contains i)) (collectIds entries)).isEmpty
      · rw [if_pos hm]
        exact integrityFinish_state now st (AuditFile.ok entries) _
      · rw [if_neg hm] at h ⊢
        exfalso
        rcases heq : recoverFold now
            (List.filter (fun i => !((allDbIds st.cur).contains i)) (collectIds entries))
            ((if (dupIds st.cur).isEmpty then [] else [Issue.duplicates (dupIds st.cur)]) ++
              [Issue.missingFromAudit
                (List.filter (fun i => !((allDbIds st.cur).contains i)) (collectIds entries))])
            st (AuditFile.ok entries) with ⟨issues2, st2, file2⟩
        rw [heq] at h
        have hmem : Issue.missingFromAudit
            (List.filter (fun i => !((allDbIds st.cur).contains i)) (collectIds entries)) ∈
              issues2 := by
          have hstart := recoverFold_mem_issues now
            (List.filter (fun i => !((allDbIds st.cur).contains i)) (collectIds entries))
            ((if (dupIds st.cur).isEmpty then [] else [Issue.duplicates (dupIds st.cur)]) ++
              [Issue.missingFromAudit
                (List.filter (fun i => !((allDbIds st.cur).contains i)) (collectIds entries))])
            st (AuditFile.ok entries) _
            (List.mem_append_right _ (List.mem_singleton.mpr rfl))
          rw [heq] at hstart
          exact hstart
        exact h _ (mem_integrityFinish_issues now st2 file2 issues2 _ hmem)

/-- With a parseable-or-absent audit file, a stale dispatched record in the
session at check time forces a stale issue and an `issues_found` verdict
(pass 2's recovery only appends to the active table, so the record is
still there for pass 3). -/
theorem perform_integrity_check_stale (now : Int) (st : DBState) (file : AuditFile)
    (r : Request) (d : Int) (hfile : file ≠ AuditFile.corrupt)
    (hr : r ∈ st.cur.active) (hs : r.status = "Dispatched")
    (hd : r.date_dispatched = some d) (hlt : d < now - 120) :
    ∃ k, 0 < k ∧
      Issue.staleUnarchived k ∈ (perform_integrity_check now st file).1.issues ∧
      (perform_integrity_check now st file).1.status = IntegrityStatus.issues_found := by
  unfold perform_integrity_check
  cases file with
  | corrupt => exact absurd rfl hfile
  | missing =>
      dsimp only
      have hp := staleCount_pos now st.cur r d hr hs hd hlt
      exact ⟨staleCount now st.cur, hp,
        (integrityFinish_stale now st AuditFile.missing _ hp).1,
        (integrityFinish_stale now st AuditFile.missing _ hp).2⟩
  | ok entries =>
      dsimp only
      split
      · have hp := staleCount_pos now st.cur r d hr hs hd hlt
        exact ⟨staleCount now st.cur, hp,
          (integrityFinish_stale now st (AuditFile.ok entries) _ hp).1,
          (integrityFinish_stale now st (AuditFile.ok entries) _ hp).2⟩
      · rcases heq : recoverFold now
            (List.filter (fun i => !((allDbIds st.cur).contains i)) (collectIds entries))
            ((if (dupIds st.cur).isEmpty then [] else [Issue.duplicates (dupIds st.cur)]) ++
              [Issue.missingFromAudit
                (List.filter (fun i => !((allDbIds st.cur).contains i)) (collectIds entries))])
            st (AuditFile.ok entries) with ⟨issues2, st2, file2⟩
        dsimp only
        have hr2 : r ∈ st2.cur.active := by
          have hmem := recoverFold_mem_active now
            (List.filter (fun i => !((allDbIds st.cur).contains i)) (collectIds entries))
            ((if (dupIds st.cur).isEmpty then [] else [Issue.duplicates (dupIds st.cur)]) ++
              [Issue.missingFromAudit
                (List.filter (fun i => !((allDbIds st.cur).contains i)) (collectIds entries))])
            st (AuditFile.ok entries) r hr
          rw [heq] at hmem
          exact hmem
        have hp := staleCount_pos now st2.cur r d hr2 hs hd hlt
        exact ⟨staleCount now st2.cur, hp,
          (integrityFinish_stale now st2 file2 issues2 hp).1,
          (integrityFinish_stale now st2 file2 issues2 hp).2⟩

/-- The candidate query selects exactly the active records with status
`Dispatched` dispatched strictly before `now − months*30` days. -/
theorem mem_candidateRequests (months : Nat) (now : Int) (t : Tables) (r : Request) :
    r ∈ candidateRequests months now t ↔
      r ∈ t.active ∧ r.status = "Dispatched" ∧
        ∃ d, r.date_dispatched = some d ∧ d < now - (months : Int) * 30 := by
  unfold candidateRequests selectionFilter
  rw [List.mem_filter]
  cases hd : r.date_dispatched with
  | none => simp [hd]
  | some d => simp [hd, and_assoc]

/-! ## Claims -/

/-- Claim C3: every deletion of an `ArchivedRequest` row raises a
`DataIntegrityError` unconditionally (no target or context bypasses the
listener), and every deletion of an active `SampleRequest` row without the
`_archiving_in_progress` token likewise raises a `DataIntegrityError`. -/
theorem claim_C3_delete_interception :
    (∀ a : ArchivedRequest,
        receive_archived_delete a =
          Except.error (DataIntegrityError.archivedDelete a.original_id)) ∧
    (∀ (now : Int) (r : Request) (file : AuditFile),
        receive_before_delete false now r file =
          Except.error (DataIntegrityError.unauthorizedDelete r.id)) := by
  exact ⟨fun a => rfl, fun now r file => rfl⟩

/-- Claim C4: the archiver selects exactly the active records with status
`Dispatched` and dispatch date strictly before `now − months*30` days; in
the 4-month default scenario with records dispatched 200 and 10 days ago,
exactly the first is archived and the second remains in the active table
unchanged. -/
theorem claim_C4_selection :
    (∀ (months : Nat) (now : Int) (t : Tables) (r : Request),
      r ∈ candidateRequests months now t ↔
        r ∈ t.active ∧ r.status = "Dispatched" ∧
          ∃ d, r.date_dispatched = some d ∧ d < now - (months : Int) * 30) ∧
    demoRunHealthy.returnedCount = 1 ∧
    demoRunHealthy.state.committed.active = [demoRecent] ∧
    demoRunHealthy.state.committed.archived.map (fun a => a.original_id) = [demoRequest.id] ∧
    demoRecent.date_dispatched = some 990 ∧ demoRequest.date_dispatched = some 800 := by
  refine ⟨mem_candidateRequests, ?_, ?_, ?_, rfl, rfl⟩
  · decide
  · decide
  · decide

/-- Result assembly introduces no missing-from-audit issue of its own. -/
theorem integrityFinish_no_missing (now : Int) (st : DBState) (file : AuditFile)
    (issues : List Issue) (h : ∀ ids, Issue.missingFromAudit ids ∉ issues) :
    ∀ ids, Issue.missingFromAudit ids ∉ (integrityFinish now st file issues).1.issues := by
  unfold integrityFinish
  dsimp only
  intro ids
  split
  · intro hmem
    rcases List.mem_append.mp hmem with h1 | h1
    · exact h ids h1
    · simp at h1
  · exact h ids

/-- Claim C8 (amended): a MISSING audit-log file is treated as an empty
log — the reconciliation pass does not raise, reports no missing-from-audit
issue, and leaves session and file untouched; but a file that exists and
cannot be parsed makes `json.load` raise inside the checker, whose outer
handler returns the degraded verdict `error` (with an empty issue list and
no state change) rather than treating the log as empty. -/
theorem claim_C8_audit_file_failure (now : Int) (st : DBState) :
    ((perform_integrity_check now st AuditFile.missing).2.1 = st ∧
     (perform_integrity_check now st AuditFile.missing).2.2 = AuditFile.missing ∧
     ∀ ids, Issue.missingFromAudit ids ∉
        (perform_integrity_check now st AuditFile.missing).1.issues) ∧
    ((perform_integrity_check now st AuditFile.corrupt).1 =
        { status := IntegrityStatus.error, issues := [] } ∧
     (perform_integrity_check now st AuditFile.corrupt).2.1 = st ∧
     (perform_integrity_check now st AuditFile.corrupt).2.2 = AuditFile.corrupt) := by
  constructor
  · refine ⟨(integrityFinish_state now st AuditFile.missing _).1,
      (integrityFinish_state now st AuditFile.missing _).2, ?_⟩
    refine integrityFinish_no_missing now st AuditFile.missing _ ?_
    intro ids
    split
    · exact List.not_mem_nil _
    · simp
  · exact ⟨rfl, rfl, rfl⟩

/-- Claim C8, counterexample: on the very same (empty, healthy) store the
checker is `healthy` with a missing log file but returns the degraded
verdict `error` when the log file exists and cannot be parsed — refuting
"the verdict must not degrade merely because the log file cannot be
parsed". -/
theorem claim_C8_counterexample :
    (perform_integrity_check 1000 emptyState AuditFile.corrupt).1.status =
        IntegrityStatus.error ∧
    (perform_integrity_check 1000 emptyState AuditFile.missing).1.status =
        IntegrityStatus.healthy ∧
    IntegrityStatus.error ≠ IntegrityStatus.healthy := by
  exact ⟨rfl, rfl, by decide⟩

/-- Claim C2: archiving is supposed to preserve every `Request` field, and
does so for all of them except the supplier-notification flag: the
`ArchivedRequest(...)` constructor call omits `iliv_email_sent`, so the
archive copy always carries the column default `False` even when the
original flag was `True` — contradicting the archive column's own
documented purpose.  The concrete run archives the flagged record, removes
it from the active table in the same transaction, sets `original_id` to
the original id, preserves all other fields, and drops the flag. -/
theorem claim_C2_archive_copy :
    demoRequest.iliv_email_sent = true ∧
    demoRunSingle.returnedCount = 1 ∧
    demoRunSingle.state.committed.active = [] ∧
    (∃ a, demoRunSingle.state.committed.archived = [a] ∧
      a.original_id = demoRequest.id ∧
      a.customer_name = demoRequest.customer_name ∧
      a.email = demoRequest.email ∧
      a.phone = demoRequest.phone ∧
      a.company_name = demoRequest.company_name ∧
      a.reference = demoRequest.reference ∧
      a.street_address = demoRequest.street_address ∧
      a.city = demoRequest.city ∧
      a.state_province = demoRequest.state_province ∧
      a.postal_code = demoRequest.postal_code ∧
      a.country = demoRequest.country ∧
      a.fabric_selections = demoRequest.fabric_selections ∧
      a.additional_notes = demoRequest.additional_notes ∧
      a.status = demoRequest.status ∧
      a.date_submitted = demoRequest.date_submitted ∧
      some a.date_dispatched = demoRequest.date_dispatched ∧
      a.iliv_email_sent = false ∧ a.iliv_email_sent ≠ demoRequest.iliv_email_sent) ∧
    (∀ (archId : Nat) (now d : Int) (r : Request),
      (mkArchivedRow archId now r d).iliv_email_sent = false) := by
  refine ⟨rfl, by decide, by decide, ?_, fun _ _ _ _ => rfl⟩
  refine ⟨mkArchivedRow 1 1000 demoRequest 800, by decide, ?_⟩
  repeat' constructor
  all_goals decide

/-- Claim C5: in the per-record block, a delete of the active row appears
in the statement trace only in the branch where the archive row was first
inserted, flushed, and confirmed readable by the `original_id` query — the
full trace is then insert, flush, positive confirm, delete, flush — and in
any branch where the confirmation query returns no row, no delete is
issued. -/
theorem claim_C5_delete_after_confirm (failRec : Nat → Bool) (now : Int) (st : DBState)
    (file : AuditFile) (r : Request) :
    (DbOp.deleteActive r.id ∈ (archiveStep failRec now st file r).2.2.2 →
      ∃ a : ArchivedRequest, a.original_id = r.id ∧
        (archiveStep failRec now st file r).2.2.2 =
          [DbOp.insertArchive a, DbOp.flush, DbOp.confirmQuery r.id true,
            DbOp.deleteActive r.id, DbOp.flush]) ∧
    (DbOp.confirmQuery r.id false ∈ (archiveStep failRec now st file r).2.2.2 →
      DbOp.deleteActive r.id ∉ (archiveStep failRec now st file r).2.2.2) := by
  unfold archiveStep
  dsimp only
  repeat' split
  all_goals refine ⟨?_, ?_⟩
  all_goals intro hmem
  all_goals dsimp only at hmem ⊢
  all_goals first
    | (refine ⟨_, ?_, rfl⟩; rfl)
    | (intro hdel; simp at hdel hmem)
    | simp at hmem

/-- Claim C5, witness: in the concrete single-record scenario the delete is
issued, so the theorem yields the insert–flush–confirm–delete trace. -/
theorem claim_C5_witness :
    DbOp.deleteActive demoRequest.id ∈
        (archiveStep (fun _ => false) 1000 demoState1 AuditFile.missing demoRequest).2.2.2 ∧
    ∃ a : ArchivedRequest, a.original_id = demoRequest.id ∧
      (archiveStep (fun _ => false) 1000 demoState1 AuditFile.missing demoRequest).2.2.2 =
        [DbOp.insertArchive a, DbOp.flush, DbOp.confirmQuery demoRequest.id true,
          DbOp.deleteActive demoRequest.id, DbOp.flush] :=
  ⟨by decide,
    (claim_C5_delete_after_confirm (fun _ => false) 1000 demoState1
        AuditFile.missing demoRequest).1 (by decide)⟩

/-- Claim C1 (amended): when at least one record was moved, the Integrity
Checker runs at end of batch (and only then); any verdict other than
`healthy` makes the function roll the session back and return 0, and a
`healthy` verdict commits the batch.  The rollback restores the pre-batch
state — every moved record reappears and its archive copy disappears —
PROVIDED the check reported no missing-from-audit issue; when pass 2 found
missing ids, its recovery side effect already committed the session
mid-check, and the subsequent rollback cannot undo the moves (see the
counterexample). -/
theorem claim_C1_batch_gate (months : Nat) (now : Int) (st : DBState) (file : AuditFile)
    (failRec : Nat → Bool) (out : ArchiveRunResult)
    (hout : out = archive_dispatched_requests months now st file failRec) :
    (out.integrity = none ↔ out.loopCount = 0) ∧
    (∀ res, out.integrity = some res →
      (res.status ≠ IntegrityStatus.healthy → out.returnedCount = 0) ∧
      (res.status = IntegrityStatus.healthy →
        out.returnedCount = out.loopCount ∧ out.state.committed = out.state.cur) ∧
      (res.status ≠ IntegrityStatus.healthy →
        (∀ ids, Issue.missingFromAudit ids ∉ res.issues) →
        out.state.committed = st.committed ∧ out.state.cur = st.committed)) := by
  subst hout
  unfold archive_dispatched_requests
  dsimp only
  rcases hl : archiveLoop failRec now (candidateRequests months now st.cur) 0 [] st file
    with ⟨count, failed, st1, file1⟩
  dsimp only
  have hcom : st1.committed = st.committed := by
    have hx := archiveLoop_committed failRec now (candidateRequests months now st.cur) 0 [] st file
    rw [hl] at hx
    exact hx
  by_cases hc : 0 < count
  · rw [if_pos hc]
    rcases hic : perform_integrity_check now st1 file1 with ⟨res, st2, file2⟩
    dsimp only
    obtain ⟨status, issues⟩ := res
    cases status with
    | healthy =>
        dsimp only
        refine ⟨⟨fun h => absurd h (by simp), fun h => absurd h (Nat.pos_iff_ne_zero.mp hc)⟩, ?_⟩
        intro res' hres
        cases hres
        refine ⟨fun hne => absurd rfl hne, fun _ => ⟨rfl, rfl⟩, fun hne _ => absurd rfl hne⟩
    | issues_found =>
        dsimp only
        refine ⟨⟨fun h => absurd h (by simp), fun h => absurd h (Nat.pos_iff_ne_zero.mp hc)⟩, ?_⟩
        intro res' hres
        cases hres
        refine ⟨fun _ => rfl, fun h => absurd h (by simp), ?_⟩
        intro _ hmiss
        have hns := perform_integrity_check_no_missing now st1 file1 (by rw [hic]; exact hmiss)
        rw [hic] at hns
        have hst : st2 = st1 := hns.1
        subst hst
        exact ⟨hcom, hcom⟩
    | error =>
        dsimp only
        refine ⟨⟨fun h => absurd h (by simp), fun h => absurd h (Nat.pos_iff_ne_zero.mp hc)⟩, ?_⟩
        intro res' hres
        cases hres
        refine ⟨fun _ => rfl, fun h => absurd h (by simp), ?_⟩
        intro _ hmiss
        have hns := perform_integrity_check_no_missing now st1 file1 (by rw [hic]; exact hmiss)
        rw [hic] at hns
        have hst : st2 = st1 := hns.1
        subst hst
        exact ⟨hcom, hcom⟩
  · rw [if_neg hc]
    dsimp only
    refine ⟨⟨fun _ => by omega, fun _ => rfl⟩, ?_⟩
    intro res hres
    simp at hres

/-- Claim C1, witness: in the two-record scenario the check runs, reports
`healthy`, and the batch commits. -/
theorem claim_C1_witness :
    demoRunHealthy.returnedCount = demoRunHealthy.loopCount ∧
    demoRunHealthy.state.committed = demoRunHealthy.state.cur :=
  ((claim_C1_batch_gate 4 1000 demoState2 AuditFile.missing (fun _ => false)
      demoRunHealthy rfl).2 { status := IntegrityStatus.healthy, issues := [] }
      (by decide)).2.1 rfl

/-- Claim C1, counterexample: with the orphan id 999 in the audit log, the
end-of-batch verdict is not `healthy` and the function returns 0 — but the
moved record (id 1) does NOT reappear in the active table and its archive
copy does NOT disappear: pass 2's recovery committed the session before
the rollback, so the rollback undid nothing. -/
theorem claim_C1_counterexample :
    demoRunOrphan.returnedCount = 0 ∧
    (∃ res, demoRunOrphan.integrity = some res ∧
      res.status ≠ IntegrityStatus.healthy) ∧
    (∀ r ∈ demoRunOrphan.state.committed.active, r.id ≠ demoRequest.id) ∧
    (∃ a ∈ demoRunOrphan.state.committed.archived, a.original_id = demoRequest.id) ∧
    demoRunOrphan.state.cur = demoRunOrphan.state.committed := by
  refine ⟨by decide,
    ⟨{ status := IntegrityStatus.issues_found
       issues := [Issue.missingFromAudit [999], Issue.recoveredRecord 999] },
      by decide, by decide⟩,
    by decide, ?_, by decide⟩
  exact ⟨mkArchivedRow 1 1000 demoRequest 800, by decide, by decide⟩

/-- Claim C10 (amended): with the default 4-month cutoff, whenever the
archiver moves at least one record while an oracle-failed candidate stays
behind in the active table, the end-of-batch check (on a parseable-or-
absent audit file) necessarily reports a staleness issue, the verdict is
`issues_found`, and the function returns 0.  The batch is actually undone
only when the check reported no missing-from-audit issue; otherwise its
recovery side effect committed the moves mid-check (see the
counterexample), so a committed partially-successful batch IS possible. -/
theorem claim_C10_partial_batch (now : Int) (st : DBState) (file : AuditFile)
    (failRec : Nat → Bool) (r : Request) (out : ArchiveRunResult)
    (hout : out = archive_dispatched_requests 4 now st file failRec)
    (hfile : file ≠ AuditFile.corrupt)
    (hr : r ∈ candidateRequests 4 now st.cur)
    (hfail : failRec r.id = true)
    (hcount : 0 < out.loopCount) :
    ∃ res, out.integrity = some res ∧
      res.status = IntegrityStatus.issues_found ∧
      (∃ k, 0 < k ∧ Issue.staleUnarchived k ∈ res.issues) ∧
      out.returnedCount = 0 ∧
      ((∀ ids, Issue.missingFromAudit ids ∉ res.issues) →
        out.state.committed = st.committed ∧ out.state.cur = st.committed) := by
  obtain ⟨hact, hs, d, hd, hlt⟩ := (mem_candidateRequests 4 now st.cur r).mp hr
  have hlt120 : d < now - 120 := by
    have h30 : ((4 : Nat) : Int) * 30 = 120 := by norm_num
    rw [h30] at hlt
    exact hlt
  subst hout
  unfold archive_dispatched_requests at hcount ⊢
  dsimp only at hcount ⊢
  rcases hl : archiveLoop failRec now (candidateRequests 4 now st.cur) 0 [] st file
    with ⟨count, failed, st1, file1⟩
  rw [hl] at hcount
  dsimp only at hcount ⊢
  have hcom : st1.committed = st.committed := by
    have hx := archiveLoop_committed failRec now (candidateRequests 4 now st.cur) 0 [] st file
    rw [hl] at hx
    exact hx
  have hr1 : r ∈ st1.cur.active := by
    have hx := archiveLoop_mem_active failRec now (candidateRequests 4 now st.cur) r hfail
      0 [] st file hact
    rw [hl] at hx
    exact hx
  have hfile1 : file1 ≠ AuditFile.corrupt := by
    have hx := archiveLoop_file_ne_corrupt failRec now (candidateRequests 4 now st.cur)
      0 [] st file hfile
    rw [hl] at hx
    exact hx
  by_cases hc : 0 < count
  · rw [if_pos hc] at hcount ⊢
    rcases hic : perform_integrity_check now st1 file1 with ⟨res, st2, file2⟩
    dsimp only
    have hstale := perform_integrity_check_stale now st1 file1 r d hfile1 hr1 hs hd hlt120
    rw [hic] at hstale
    obtain ⟨k, hk, hmem, hstatus⟩ := hstale
    obtain ⟨status, issues⟩ := res
    dsimp only at hstatus hmem
    subst hstatus
    dsimp only
    refine ⟨{ status := IntegrityStatus.issues_found, issues := issues }, rfl, rfl,
      ⟨k, hk, hmem⟩, rfl, ?_⟩
    intro hmiss
    have hns := perform_integrity_check_no_missing now st1 file1 (by rw [hic]; exact hmiss)
    rw [hic] at hns
    have hst : st2 = st1 := hns.1
    subst hst
    exact ⟨hcom, hcom⟩
  · rw [if_neg hc] at hcount
    dsimp only at hcount
    exact absurd hcount hc

/-- Claim C10, witness: two old candidates, id 3 fails, benign (missing)
audit file — the check reports the stale record, the run returns 0, and
the batch really is undone. -/
theorem claim_C10_witness :
    ∃ res, demoRunPartialClean.integrity = some res ∧
      res.status = IntegrityStatus.issues_found ∧
      (∃ k, 0 < k ∧ Issue.staleUnarchived k ∈ res.issues) ∧
      demoRunPartialClean.returnedCount = 0 ∧
      ((∀ ids, Issue.missingFromAudit ids ∉ res.issues) →
        demoRunPartialClean.state.committed = demoState3.committed ∧
        demoRunPartialClean.state.cur = demoState3.committed) :=
  claim_C10_partial_batch 1000 demoState3 AuditFile.missing (fun i => i == 3) demoThird
    demoRunPartialClean rfl (by decide) (by decide) (by decide) (by decide)

/-- Claim C10, counterexample: same partial batch but with the orphan id
999 in the audit log — the function still returns 0, yet the moved record
(id 1) stays durably archived while the failed candidate (id 3) stays
active and stale: a committed partially-successful batch, which the claim
says is impossible. -/
theorem claim_C10_counterexample :
    demoRunPartial.returnedCount = 0 ∧
    demoRunPartial.failed = [demoThird.id] ∧
    (∃ a ∈ demoRunPartial.state.committed.archived, a.original_id = demoRequest.id) ∧
    (∃ r ∈ demoRunPartial.state.committed.active,
        r.id = demoThird.id ∧ r.status = "Dispatched" ∧ r.date_dispatched = some 700) ∧
    demoRunPartial.state.committed ≠ demoState3.committed := by
  refine ⟨by decide, by decide,
    ⟨mkArchivedRow 1 1000 demoRequest 800, by decide, by decide⟩,
    ⟨demoThird, by decide, by decide⟩, by decide⟩

/-- A reverse scan returning an entry means: the predicate holds of it and
it is the LAST satisfying element — everything after it fails the
predicate. -/
theorem find_last_spec {α : Type} (p : α → Bool) (l : List α) (e : α)
    (h : l.reverse.find? p = some e) :
    p e = true ∧ ∃ pre post, l = pre ++ e :: post ∧ ∀ x ∈ post, p x = false := by
  induction l using List.reverseRecOn with
  | nil => simp [List.find?] at h
  | append_singleton xs a ih =>
      rw [List.reverse_append] at h
      simp only [List.reverse_singleton, List.singleton_append, List.find?] at h
      cases hpa : p a with
      | true =>
          rw [hpa] at h
          cases h
          exact ⟨hpa, xs, [], rfl, by simp⟩
      | false =>
          rw [hpa] at h
          obtain ⟨hpe, pre, post, hsplit, hpost⟩ := ih h
          refine ⟨hpe, pre, post ++ [a], by rw [hsplit]; simp, ?_⟩
          intro x hx
          rcases List.mem_append.mp hx with hx1 | hx1
          · exact hpost x hx1
          · rw [List.mem_singleton.mp hx1]
            exact hpa

/-- Claim C6 (amended): `recover_from_audit_log` looks up the most recent
audit entry for the id — with NO filter on the entry's recorded table or
operation (an `archive` entry recreates a row just the same, see the
counterexample) — and, when one is found, recreates an active row copying
every snapshot field present in the row schema except `id` (assigned the
fresh primary key) with date fields converted from text, leaves the
default `False` for the flag absent from the snapshot, and commits; with
no entry it reports failure and changes nothing.  The function always
returns a boolean and never raises. -/
theorem claim_C6_recover (now : Int) (st : DBState) (file : AuditFile) (rid : Nat) :
    ((recover_from_audit_log now st file rid).1 = false ↔
        check_audit_log_for_record file rid = none) ∧
    ((recover_from_audit_log now st file rid).1 = false →
        recover_from_audit_log now st file rid = (false, st, file)) ∧
    (∀ entries e, file = AuditFile.ok entries →
        check_audit_log_for_record file rid = some e →
        e.record_id = rid ∧
        ∃ pre post, entries = pre ++ e :: post ∧ ∀ x ∈ post, x.record_id ≠ rid) ∧
    (∀ e, check_audit_log_for_record file rid = some e →
      (recover_from_audit_log now st file rid).1 = true ∧
      (recover_from_audit_log now st file rid).2.1.cur.active =
        st.cur.active ++ [requestFromData st.nextId e.data] ∧
      (recover_from_audit_log now st file rid).2.1.committed =
        (recover_from_audit_log now st file rid).2.1.cur ∧
      (requestFromData st.nextId e.data).id = st.nextId ∧
      (requestFromData st.nextId e.data).customer_name = e.data.customer_name ∧
      (requestFromData st.nextId e.data).email = e.data.email ∧
      (requestFromData st.nextId e.data).phone = e.data.phone ∧
      (requestFromData st.nextId e.data).company_name = e.data.company_name ∧
      (requestFromData st.nextId e.data).reference = e.data.reference ∧
      (requestFromData st.nextId e.data).street_address = e.data.street_address ∧
      (requestFromData st.nextId e.data).city = e.data.city ∧
      (requestFromData st.nextId e.data).state_province = e.data.state_province ∧
      (requestFromData st.nextId e.data).postal_code = e.data.postal_code ∧
      (requestFromData st.nextId e.data).country = e.data.country ∧
      (requestFromData st.nextId e.data).fabric_selections = e.data.fabric_selections ∧
      (requestFromData st.nextId e.data).additional_notes = e.data.additional_notes ∧
      (requestFromData st.nextId e.data).status = e.data.status ∧
      (requestFromData st.nextId e.data).date_submitted = e.data.date_submitted ∧
      (requestFromData st.nextId e.data).date_dispatched = e.data.date_dispatched ∧
      (requestFromData st.nextId e.data).iliv_email_sent = false) := by
  refine ⟨?_, ?_, ?_, ?_⟩
  · unfold recover_from_audit_log
    split
    · next heq => simp [heq]
    · next e heq => simp [heq]
  · unfold recover_from_audit_log
    split
    · intro _; rfl
    · intro hfalse; simp at hfalse
  · intro entries e hfeq hsome
    subst hfeq
    unfold check_audit_log_for_record at hsome
    obtain ⟨hpe, pre, post, hsplit, hpost⟩ :=
      find_last_spec (fun x => x.record_id == rid) entries e hsome
    refine ⟨by simpa using hpe, pre, post, hsplit, ?_⟩
    intro x hx
    simpa using hpost x hx
  · intro e hsome
    unfold recover_from_audit_log
    rw [hsome]
    exact ⟨rfl, rfl, rfl, rfl, rfl, rfl, rfl, rfl, rfl, rfl, rfl, rfl, rfl, rfl,
      rfl, rfl, rfl, rfl, rfl, rfl⟩

/-- Claim C6, witness: recovering the orphan id 999 from its logged
`insert` entry succeeds, appends exactly the reconstructed row, and
commits. -/
theorem claim_C6_witness :
    (recover_from_audit_log 1000 emptyState orphanFile 999).1 = true ∧
    (recover_from_audit_log 1000 emptyState orphanFile 999).2.1.cur.active =
      emptyState.cur.active ++
        [requestFromData emptyState.nextId
          (mkEntry 950 "insert" "SampleRequest" 999 orphanSnapshot).data] ∧
    (recover_from_audit_log 1000 emptyState orphanFile 999).2.1.committed =
      (recover_from_audit_log 1000 emptyState orphanFile 999).2.1.cur := by
  have h := (claim_C6_recover 1000 emptyState orphanFile 999).2.2.2
    (mkEntry 950 "insert" "SampleRequest" 999 orphanSnapshot) rfl
  exact ⟨h.1, h.2.1, h.2.2.1⟩

/-- Claim C6, counterexample: the only audit entry for id 1 records an
`archive` operation — not an insert or update — yet `recover_from_audit_log`
still recreates an active row from it and reports success, refuting the
"only if ... operation was insert or update" guard the claim describes. -/
theorem claim_C6_counterexample :
    (check_audit_log_for_record archiveOpFile 1).map (fun e => e.operation) =
        some "archive" ∧
    (recover_from_audit_log 1000 emptyState archiveOpFile 1).1 = true ∧
    (recover_from_audit_log 1000 emptyState archiveOpFile 1).2.1.cur.active ≠ [] ∧
    (recover_from_audit_log 1000 emptyState archiveOpFile 1).2.1.committed.active ≠ [] := by
  refine ⟨rfl, rfl, by decide, by decide⟩

/-- The active-records restore loop never touches the archive table. -/
theorem restoreActiveLoop_archived (ds : List RequestData) :
    ∀ t nid ins, (restoreActiveLoop ds t nid ins).1.archived = t.archived := by
  induction ds with
  | nil => intro t nid ins; rfl
  | cons d rest ih =>
      intro t nid ins
      unfold restoreActiveLoop
      split
      · exact ih t nid ins
      · exact ih _ _ _

/-- The active-records restore loop only appends rows. -/
theorem restoreActiveLoop_append (ds : List RequestData) :
    ∀ t nid ins, ∃ adds, (restoreActiveLoop ds t nid ins).1.active = t.active ++ adds := by
  induction ds with
  | nil => intro t nid ins; exact ⟨[], (List.append_nil _).symm⟩
  | cons d rest ih =>
      intro t nid ins
      unfold restoreActiveLoop
      split
      · exact ih t nid ins
      · obtain ⟨adds, hadds⟩ := ih { t with active := t.active ++ [requestFromData nid d] }
          (nid + 1) (ins ++ [requestFromData nid d])
        exact ⟨[requestFromData nid d] ++ adds, by rw [hadds]; simp⟩

/-- The archived-records restore loop never touches the active table. -/
theorem restoreArchivedLoop_active (ds : List ArchivedData) :
    ∀ t naid ins, (restoreArchivedLoop ds t naid ins).1.active = t.active := by
  induction ds with
  | nil => intro t naid ins; rfl
  | cons d rest ih =>
      intro t naid ins
      unfold restoreArchivedLoop
      split
      · exact ih t naid ins
      · exact ih _ _ _

/-- The archived-records restore loop only appends rows. -/
theorem restoreArchivedLoop_append (ds : List ArchivedData) :
    ∀ t naid ins, ∃ adds, (restoreArchivedLoop ds t naid ins).1.archived = t.archived ++ adds := by
  induction ds with
  | nil => intro t naid ins; exact ⟨[], (List.append_nil _).symm⟩
  | cons d rest ih =>
      intro t naid ins
      unfold restoreArchivedLoop
      split
      · exact ih t naid ins
      · obtain ⟨adds, hadds⟩ := ih { t with archived := t.archived ++ [archivedFromData naid d] }
          (naid + 1) (ins ++ [archivedFromData naid d])
        exact ⟨[archivedFromData naid d] ++ adds, by rw [hadds]; simp⟩

/-- After the archived-records loop, every snapshot entry has a row with
its `original_id` in the archive table. -/
theorem restoreArchivedLoop_covers (ds : List ArchivedData) :
    ∀ t naid ins d, d ∈ ds →
      ∃ a ∈ (restoreArchivedLoop ds t naid ins).1.archived,
        a.original_id = d.original_id := by
  induction ds with
  | nil => intro t naid ins d hd; exact absurd hd (List.not_mem_nil d)
  | cons d0 rest ih =>
      intro t naid ins d hd
      unfold restoreArchivedLoop
      split
      · next hany =>
          rcases List.mem_cons.mp hd with hd0 | hdr
          · obtain ⟨a, ha, hab⟩ := List.any_eq_true.mp hany
            obtain ⟨adds, hadds⟩ := restoreArchivedLoop_append rest t naid ins
            refine ⟨a, ?_, by rw [hd0]; exact by simpa using hab⟩
            rw [hadds]
            exact List.mem_append_left _ ha
          · exact ih t naid ins d hdr
      · rcases List.mem_cons.mp hd with hd0 | hdr
        · obtain ⟨adds, hadds⟩ := restoreArchivedLoop_append rest
            { t with archived := t.archived ++ [archivedFromData naid d0] } (naid + 1)
            (ins ++ [archivedFromData naid d0])
          refine ⟨archivedFromData naid d0, ?_, by rw [hd0]; rfl⟩
          rw [hadds]
          exact List.mem_append_left _ (List.mem_append_right _ (List.mem_singleton.mpr rfl))
        · exact ih _ _ _ d hdr

/-- When every snapshot entry's `original_id` is already present, the
archived-records loop is the identity. -/
theorem restoreArchivedLoop_noop (ds : List ArchivedData) :
    ∀ t naid ins, (∀ d ∈ ds, ∃ a ∈ t.archived, a.original_id = d.original_id) →
      restoreArchivedLoop ds t naid ins = (t, naid, ins) := by
  induction ds with
  | nil => intro t naid ins _; rfl
  | cons d0 rest ih =>
      intro t naid ins hcov
      obtain ⟨a, ha, hao⟩ := hcov d0 (List.mem_cons_self d0 rest)
      have hany : t.archived.any (fun a => a.original_id == d0.original_id) = true :=
        List.any_eq_true.mpr ⟨a, ha, by rw [hao]; simp⟩
      unfold restoreArchivedLoop
      rw [if_pos hany]
      exact ih t naid ins (fun d hd => hcov d (List.mem_cons_of_mem d0 hd))

/-- Claim C7 (amended): `restore_from_backup` is additive-only — every
pre-existing row survives unchanged in place and restored rows are only
appended — commits exactly once at the end, and on an exception rolls the
whole restore back (all-or-nothing); the ARCHIVED side is idempotent
(re-applying the snapshot re-creates nothing, because `original_id` is
copied and checked); but the ACTIVE side inserts rows under FRESH ids while
checking existence against the snapshot id, so re-applying a snapshot can
re-create active entries (see the counterexample) — idempotence fails for
active records. -/
theorem claim_C7_restore (now : Int) (st : DBState) (file : AuditFile) (b : BackupData) :
    (∃ addsA addsAr,
      (restore_from_backup now st file (some b) false).2.1.cur.active =
          st.cur.active ++ addsA ∧
      (restore_from_backup now st file (some b) false).2.1.cur.archived =
          st.cur.archived ++ addsAr) ∧
    ((restore_from_backup now st file (some b) false).2.1.committed =
      (restore_from_backup now st file (some b) false).2.1.cur) ∧
    ((restore_from_backup now st file (some b) false).1.success = true) ∧
    ((restore_from_backup now
        (restore_from_backup now st file (some b) false).2.1
        (restore_from_backup now st file (some b) false).2.2 (some b) false).2.1.cur.archived =
      (restore_from_backup now st file (some b) false).2.1.cur.archived) ∧
    ((restore_from_backup now st file (some b) true).1.success = false ∧
     (restore_from_backup now st file (some b) true).2.1.cur = st.committed ∧
     (restore_from_backup now st file (some b) true).2.1.committed = st.committed ∧
     (restore_from_backup now st file (some b) true).2.2 = file) ∧
    (restore_from_backup now st file none false =
      ({ success := false, restoredActive := 0, restoredArchived := 0 }, st, file)) := by
  rcases hA : restoreActiveLoop b.active_records st.cur st.nextId [] with ⟨t1, nid1, insA⟩
  rcases hAr : restoreArchivedLoop b.archived_records t1 st.nextArchId [] with ⟨t2, naid1, insAr⟩
  have hrun1 : restore_from_backup now st file (some b) false =
      ({ success := true, restoredActive := insA.length, restoredArchived := insAr.length },
        commitDB { st with cur := t2, nextId := nid1, nextArchId := naid1 },
        insA.foldl
          (fun f r => log_operation f (mkEntry now "insert" "SampleRequest" r.id r.to_dict))
          file) := by
    unfold restore_from_backup
    dsimp only
    rw [hA]
    dsimp only
    rw [hAr]
    rfl
  have ht1Arch : t1.archived = st.cur.archived := by
    have hx := restoreActiveLoop_archived b.active_records st.cur st.nextId []
    rw [hA] at hx
    exact hx
  have ht1Act : ∃ adds, t1.active = st.cur.active ++ adds := by
    have hx := restoreActiveLoop_append b.active_records st.cur st.nextId []
    rw [hA] at hx
    exact hx
  have ht2Act : t2.active = t1.active := by
    have hx := restoreArchivedLoop_active b.archived_records t1 st.nextArchId []
    rw [hAr] at hx
    exact hx
  have ht2Arch : ∃ adds, t2.archived = t1.archived ++ adds := by
    have hx := restoreArchivedLoop_append b.archived_records t1 st.nextArchId []
    rw [hAr] at hx
    exact hx
  have hcov : ∀ d ∈ b.archived_records, ∃ a ∈ t2.archived, a.original_id = d.original_id := by
    intro d hd
    have hx := restoreArchivedLoop_covers b.archived_records t1 st.nextArchId [] d hd
    rw [hAr] at hx
    exact hx
  refine ⟨?_, ?_, ?_, ?_, ?_, ?_⟩
  · rw [hrun1]
    dsimp only [commitDB]
    obtain ⟨addsA, hA1⟩ := ht1Act
    obtain ⟨addsAr, hA2⟩ := ht2Arch
    exact ⟨addsA, addsAr, by rw [ht2Act, hA1], by rw [hA2, ht1Arch]⟩
  · rw [hrun1]; rfl
  · rw [hrun1]
  · rw [hrun1]
    dsimp only [commitDB]
    rcases hA2 : restoreActiveLoop b.active_records t2 nid1 [] with ⟨t3, nid3, insA3⟩
    have ht3Arch : t3.archived = t2.archived := by
      have hx := restoreActiveLoop_archived b.active_records t2 nid1 []
      rw [hA2] at hx
      exact hx
    have hnoop : restoreArchivedLoop b.archived_records t3 naid1 [] = (t3, naid1, []) :=
      restoreArchivedLoop_noop b.archived_records t3 naid1 []
        (fun d hd => by rw [ht3Arch]; exact hcov d hd)
    unfold restore_from_backup
    dsimp only
    rw [hA2]
    dsimp only
    rw [hnoop]
    dsimp only [commitDB]
    exact ht3Arch
  · unfold restore_from_backup
    dsimp only [rollbackDB]
    exact ⟨rfl, rfl, rfl, rfl⟩
  · rfl

/-- Claim C7, counterexample: applying the same snapshot (one active entry
with snapshot id 5) twice to an empty store re-creates the record both
times — the restored row got fresh id 1, so the second run's
existence check on snapshot id 5 finds nothing.  The final record set
after two applications (two rows) differs from the set after one (one
row), refuting idempotence. -/
theorem claim_C7_counterexample :
    restoreOnce.1.restoredActive = 1 ∧
    restoreOnce.2.1.cur.active.length = 1 ∧
    restoreTwice.1.restoredActive = 1 ∧
    restoreTwice.2.1.cur.active.length = 2 ∧
    restoreTwice.2.1.cur.active ≠ restoreOnce.2.1.cur.active := by
  exact ⟨rfl, rfl, rfl, rfl, by decide⟩

/-- Claim C9 (amended): `execute_with_safeguards` invokes the wrapped
operation only after a successful pre-operation backup (on backup failure
the operation is never evaluated and the wrapper raises a `RuntimeError`);
on success the caller receives NOT the operation's return value but the
comprehensive result dictionary, which embeds that value unchanged under
`operation_result`; and when the operation raises, the caller receives a
`RuntimeError` wrapping the original exception's message, not the original
exception. -/
theorem claim_C9_safeguards (operation_name : String) (preBackup : Except PyExc String)
    (op1 op2 : Unit → Except PyExc PyVal) (postVerification : Except PyExc PyVal) :
    (∀ e, preBackup = Except.error e →
      execute_with_safeguards operation_name preBackup op1 postVerification =
        execute_with_safeguards operation_name preBackup op2 postVerification ∧
      ∃ pe, execute_with_safeguards operation_name preBackup op1 postVerification =
          Except.error pe ∧ pe.kind = "RuntimeError") ∧
    (∀ bid v verif, preBackup = Except.ok bid → op1 () = Except.ok v →
        postVerification = Except.ok verif →
      ∃ entries, execute_with_safeguards operation_name preBackup op1 postVerification =
          Except.ok (PyVal.dict entries) ∧
        entries.lookup "operation_result" = some v ∧
        entries.lookup "status" = some (PyVal.str "success")) ∧
    (∀ bid e, preBackup = Except.ok bid → op1 () = Except.error e →
      execute_with_safeguards operation_name preBackup op1 postVerification =
        Except.error (PyExc.mk "RuntimeError"
          ("CRITICAL: Safeguarded operation " ++ operation_name ++ " failed: " ++ e.msg))) := by
  refine ⟨?_, ?_, ?_⟩
  · intro e he
    subst he
    exact ⟨rfl, _, rfl, rfl⟩
  · intro bid v verif hpre hop hpost
    subst hpre
    subst hpost
    unfold execute_with_safeguards
    dsimp only
    rw [hop]
    exact ⟨_, rfl, rfl, rfl⟩
  · intro bid e hpre hop
    subst hpre
    unfold execute_with_safeguards
    dsimp only
    rw [hop]

/-- Claim C9, counterexample: a wrapped operation returning the plain value
42 reaches the caller as the result dictionary, not as 42; and a wrapped
operation raising a `ValueError` reaches the caller as a `RuntimeError`
with a wrapped message, not as the original exception. -/
theorem claim_C9_counterexample :
    execute_with_safeguards "archive_old" (Except.ok "b1")
        (fun _ => Except.ok (PyVal.int 42)) (Except.ok PyVal.noneV) ≠
      Except.ok (PyVal.int 42) ∧
    execute_with_safeguards "archive_old" (Except.ok "b1")
        (fun _ => Except.error { kind := "ValueError", msg := "boom" })
        (Except.ok PyVal.noneV) =
      Except.error (PyExc.mk "RuntimeError"
        "CRITICAL: Safeguarded operation archive_old failed: boom") ∧
    PyExc.mk "RuntimeError" "CRITICAL: Safeguarded operation archive_old failed: boom" ≠
      PyExc.mk "ValueError" "boom" := by
  refine ⟨?_, rfl, by decide⟩
  intro h
  simp [execute_with_safeguards] at h

/-- Claim C9, witness: the amended theorem at a concrete wrapped operation
— the dictionary embeds the operation's value under `operation_result`. -/
theorem claim_C9_witness :
    ∃ entries, execute_with_safeguards "nightly_archive" (Except.ok "b2")
        (fun _ => Except.ok (PyVal.int 7)) (Except.ok PyVal.noneV) =
        Except.ok (PyVal.dict entries) ∧
      entries.lookup "operation_result" = some (PyVal.int 7) ∧
      entries.lookup "status" = some (PyVal.str "success") :=
  (claim_C9_safeguards "nightly_archive" (Except.ok "b2")
      (fun _ => Except.ok (PyVal.int 7)) (fun _ => Except.ok PyVal.noneV)
      (Except.ok PyVal.noneV)).2.1 "b2" (PyVal.int 7) PyVal.noneV rfl rfl rfl
